import Mathlib

/-!
Verification development for the ops-assistant repository: a Node API gateway
(`apps/api/src/server.js`), React viewers (`CitationsViewer.tsx`,
`VerificationPanel`), and a grounded-generation core described by the design
document. Pure functions are embedded directly from the TypeScript/JavaScript
source; the Python AI-service core (chunker, citation validator, verification
checker, generate entry point) is not part of the source tree, so those parts
are modelled from the design document and marked as such.
-/

namespace OpsAssistant

/-! ## Character-list primitives shared by the embeddings

`replaceAllChar c repl` is JavaScript `String.prototype.replaceAll` for a
one-character pattern: every occurrence of `c` is replaced by `repl`. -/

def replaceAllChar (c : Char) (repl : List Char) : List Char → List Char
  | [] => []
  | a :: rest => (if a = c then repl else [a]) ++ replaceAllChar c repl rest

/-- JavaScript `String.prototype.split` for a non-empty separator
`p :: ps`: the list of segments between non-overlapping, left-to-right
occurrences of the separator. -/
def splitOnNE (p : Char) (ps : List Char) : List Char → List (List Char)
  | [] => [[]]
  | a :: rest =>
    if (p :: ps).isPrefixOf (a :: rest) then
      [] :: splitOnNE p ps (rest.drop ps.length)
    else
      match splitOnNE p ps rest with
      | [] => [[a]]
      | x :: xs => (a :: x) :: xs
termination_by l => l.length
decreasing_by
  all_goals simp
  all_goals omega

/-- JavaScript `Array.prototype.join` with separator `sep`. -/
def joinSep (sep : List Char) : List (List Char) → List Char
  | [] => []
  | [x] => x
  | x :: y :: rest => x ++ sep ++ joinSep sep (y :: rest)

/-- Specification-side description of "replace each occurrence": replaces every
non-overlapping, left-to-right occurrence of the pattern `p :: ps` by `repl`. -/
def replaceOcc (p : Char) (ps : List Char) (repl : List Char) : List Char → List Char
  | [] => []
  | a :: rest =>
    if (p :: ps).isPrefixOf (a :: rest) then
      repl ++ replaceOcc p ps repl (rest.drop ps.length)
    else
      a :: replaceOcc p ps repl rest
termination_by l => l.length
decreasing_by
  all_goals simp
  all_goals omega

/-- JavaScript `String.prototype.split` for a one-character separator, on
character lists. -/
def splitChar (c : Char) : List Char → List (List Char)
  | [] => [[]]
  | a :: rest =>
    if a = c then [] :: splitChar c rest
    else
      match splitChar c rest with
      | [] => [[a]]
      | x :: xs => (a :: x) :: xs

/-- Boolean substring containment (JavaScript `String.prototype.includes`). -/
def hasInfix (pat : List Char) : List Char → Bool
  | [] => pat.isEmpty
  | a :: rest => pat.isPrefixOf (a :: rest) || hasInfix pat rest

/-! ## CitationsViewer.tsx -/

/-- The five chained `replaceAll` calls of `escapeHtml`, on character lists:
`&` first, then `<`, `>`, `"`, `'`. -/
def escL (l : List Char) : List Char :=
  replaceAllChar '\'' "&#039;".data
    (replaceAllChar '"' "&quot;".data
      (replaceAllChar '>' "&gt;".data
        (replaceAllChar '<' "&lt;".data
          (replaceAllChar '&' "&amp;".data l))))

/-- `escapeHtml` from `CitationsViewer.tsx`. -/
def escapeHtml (s : String) : String :=
  ⟨escL s.data⟩

/-- The value returned by `highlightInText` (the argument of
`dangerouslySetInnerHTML`). -/
structure HtmlResult where
  __html : String
deriving DecidableEq, Repr

/-- The opening `<mark …>` tag literal used by `highlightInText`. -/
def markPre : String :=
  "<mark style=\"background: #fff3bf; padding: 0 2px; border-radius: 4px;\">"

/-- The closing tag of the highlight wrapper. -/
def markPost : String := "</mark>"

/-- JavaScript `String.prototype.trim` on character lists: whitespace removed
from both ends. -/
def trimL (l : List Char) : List Char :=
  ((l.dropWhile Char.isWhitespace).reverse.dropWhile Char.isWhitespace).reverse

/-- JavaScript `String.prototype.trim`. -/
def jsTrim (s : String) : String :=
  ⟨trimL s.data⟩

/-- JavaScript `split` for an arbitrary separator: for the empty separator JS
splits into single characters, but `highlightInText` only ever splits on a
separator of length ≥ 8, so that case is irrelevant and kept as the identity
segmentation. -/
def splitOnL (pat : List Char) (l : List Char) : List (List Char) :=
  match pat with
  | [] => [l]
  | p :: ps => splitOnNE p ps l

/-- Specification-side replace-each-occurrence for an arbitrary pattern. -/
def replaceOccL (pat repl l : List Char) : List Char :=
  match pat with
  | [] => l
  | p :: ps => replaceOcc p ps repl l

/-- `highlightInText` from `CitationsViewer.tsx`: empty text renders as the
empty string; a trimmed quote of fewer than 8 characters renders the escaped
text unhighlighted; otherwise every occurrence of the escaped quote in the
escaped text is wrapped in a `<mark>` element via `split`/`join`. -/
def highlightInText (fullText : String) (quote : String) : HtmlResult :=
  let cleanQuote := jsTrim quote
  if fullText = "" then ⟨""⟩
  else if cleanQuote.length < 8 then ⟨escapeHtml fullText⟩
  else
    let safeText := escapeHtml fullText
    let safeQuote := escapeHtml cleanQuote
    ⟨⟨joinSep (markPre.data ++ safeQuote.data ++ markPost.data)
        (splitOnL safeQuote.data safeText.data)⟩⟩

/-- Per-character HTML-entity escaping, the specification-side description of
`escapeHtml` ("replaces every occurrence of the characters with their HTML
entities"). -/
def escCharSpec (c : Char) : List Char :=
  if c = '&' then "&amp;".data
  else if c = '<' then "&lt;".data
  else if c = '>' then "&gt;".data
  else if c = '"' then "&quot;".data
  else if c = '\'' then "&#039;".data
  else [c]

/-! ## server.js: connection-string parsing and SAS URL construction -/

/-- `connStr.split(";").map(p => p.split("=", 2)).filter(x => x.length === 2)`
from `getReadSasUrl`: JavaScript `split` with limit 2 keeps only the first two
segments, so anything after a second `=` is discarded. -/
def parseConnStr (connStr : String) : List (String × String) :=
  (splitChar ';' connStr.data).filterMap (fun p =>
    match splitChar '=' p with
    | k :: v :: _ => some (⟨k⟩, ⟨v⟩)
    | _ => none)

/-- `Object.fromEntries` key lookup: the last pair with the key wins. -/
def lookupConn (parts : List (String × String)) (key : String) : Option String :=
  (parts.reverse.find? (fun kv => kv.1 == key)).map (·.2)

/-- An upper-case hexadecimal digit. -/
def hexDigitChar (n : Nat) : Char :=
  if n < 10 then Char.ofNat (48 + n) else Char.ofNat (55 + n)

/-- Percent-encoding of one byte, `%XY`. -/
def percentByte (b : UInt8) : List Char :=
  ['%', hexDigitChar (b.toNat / 16), hexDigitChar (b.toNat % 16)]

/-- Characters JavaScript `encodeURIComponent` leaves unescaped. -/
def isUriUnreserved (c : Char) : Bool :=
  c.isAlphanum || c ∈ ['-', '_', '.', '!', '~', '*', '\'', '(', ')']

/-- JavaScript `encodeURIComponent`: unreserved characters kept, every other
character percent-encoded byte-by-byte in UTF-8. -/
def encodeURIComponent (s : String) : String :=
  ⟨s.data.flatMap (fun c =>
    if isUriUnreserved c then [c]
    else (String.singleton c).toUTF8.toList.flatMap percentByte)⟩

/-- The options record passed to the external `generateBlobSASQueryParameters`;
`BlobSASPermissions.parse "r"` is modelled as the string `"r"`, and `expiresOn`
as milliseconds since the epoch. -/
structure SasParams where
  containerName : String
  blobName : String
  permissions : String
  expiresOn : Nat
deriving DecidableEq, Repr

/-- Serialization of the SAS token by the external library, modelled at its
boundary: a query string carrying the permission and expiry fields. The
cryptographic signature is the external collaborator's concern and is not
modelled. -/
def sasQueryString (p : SasParams) : String :=
  "sp=" ++ p.permissions ++ "&se=" ++ toString p.expiresOn

/-- `getReadSasUrl` from `server.js`: parses account name and key out of the
connection string, builds read-only (`"r"`) SAS parameters expiring one hour
(`60 * 60 * 1000` ms) after `nowMs` (`Date.now()`), and returns the blob URL.
A connection string without `AccountName`/`AccountKey` makes the JavaScript
credential constructor throw; that is modelled as the `.error` branch. -/
def getReadSasUrl (nowMs : Nat) (connStr containerName blobName : String) :
    Except String (SasParams × String) :=
  let parts := parseConnStr connStr
  match lookupConn parts "AccountName", lookupConn parts "AccountKey" with
  | some accountName, some _ =>
    let expiresOn := nowMs + 60 * 60 * 1000
    let sas : SasParams :=
      { containerName := containerName, blobName := blobName
        permissions := "r", expiresOn := expiresOn }
    .ok (sas, "https://" ++ accountName ++ ".blob.core.windows.net/" ++
      containerName ++ "/" ++ encodeURIComponent blobName ++ "?" ++ sasQueryString sas)
  | _, _ => .error "Invalid storage connection string"

/-! ## server.js: POST /upload -/

/-- A multer in-memory file. -/
structure UploadFile where
  originalname : String
  buffer : String
  mimetype : String
deriving DecidableEq

/-- `(file.originalname.split(".").pop() || "").toLowerCase()`. -/
def docTypeOf (name : String) : String :=
  ⟨((splitChar '.' name.data).getLastD []).map Char.toLower⟩

/-- A successful per-file entry pushed onto `results`. -/
structure UploadResultItem where
  docId : String
  filename : String
  docType : String
  blobName : String
deriving DecidableEq

/-- A per-file entry pushed onto `errors`, naming the failed file. -/
structure UploadErrorItem where
  filename : String
  docType : String
  error : String
deriving DecidableEq

/-- Outcome of the external work for one file: the blob upload
(`blockBlob.uploadData`) may throw, the ingestion call
(`axios.post(aiUrl + "/ingest", …)`) may throw, or both succeed. The message
carried is `err.message`. -/
inductive UploadOutcome where
  | blobError (message : String)
  | ingestError (message : String)
  | ok
deriving DecidableEq

/-- `err.message || "Upload failed"`. -/
def errorText (m : String) : String :=
  if m = "" then "Upload failed" else m

/-- The `for (const file of files)` loop of the /upload handler: each file is
processed inside its own try/catch, so one file's failure never stops the
others; a failure pushes an error entry naming that file. `uuid i` models
`crypto.randomUUID()` for the i-th file of the batch. -/
def uploadLoop (uuid : Nat → String) (outcome : UploadFile → UploadOutcome) :
    Nat → List UploadFile → List UploadResultItem × List UploadErrorItem
  | _, [] => ([], [])
  | idx, f :: rest =>
    let docType := docTypeOf f.originalname
    let docId := uuid idx
    let blobName := docId ++ "_" ++ f.originalname
    let tail := uploadLoop uuid outcome (idx + 1) rest
    match outcome f with
    | .ok =>
      ({ docId := docId, filename := f.originalname
         docType := docType, blobName := blobName } :: tail.1, tail.2)
    | .blobError m =>
      (tail.1, { filename := f.originalname, docType := docType
                 error := errorText m } :: tail.2)
    | .ingestError m =>
      (tail.1, { filename := f.originalname, docType := docType
                 error := errorText m } :: tail.2)

/-- The JSON response of the /upload handler. -/
inductive UploadResponse where
  | badRequest (error : String)
  | batch (items : List UploadResultItem) (errors : List UploadErrorItem)
deriving DecidableEq

/-- HTTP status of an /upload response. -/
def UploadResponse.status : UploadResponse → Nat
  | .badRequest _ => 400
  | .batch _ _ => 200

/-- External side effects performed by one /upload request. -/
structure UploadEffects where
  containerCreates : Nat
  blobUploads : Nat
  ingestCalls : Nat
deriving DecidableEq

/-- Number of ingestion calls issued: one per file whose blob upload did not
throw first. -/
def ingestAttempts (outcome : UploadFile → UploadOutcome) (files : List UploadFile) : Nat :=
  (files.filter (fun f =>
    match outcome f with
    | .blobError _ => false
    | _ => true)).length

/-- The POST /upload handler: an empty file list is rejected with 400
`"Missing file(s)"` before any external call; otherwise the container is
created once, every file is attempted, and per-file results and errors are
returned together with status 200. -/
def uploadHandler (uuid : Nat → String) (outcome : UploadFile → UploadOutcome)
    (files : List UploadFile) : UploadResponse × UploadEffects :=
  if files.isEmpty then
    (.badRequest "Missing file(s)", ⟨0, 0, 0⟩)
  else
    let r := uploadLoop uuid outcome 0 files
    (.batch r.1 r.2, ⟨1, files.length, ingestAttempts outcome files⟩)

/-! ## server.js: GET /source-chunk and GET /doc-preview-url -/

/-- Result of a gateway handler: either `res.json(body)` with status 200, or an
error JSON `{error, details}` with the given status. -/
inductive GatewayResult (α : Type) where
  | success (status : Nat) (body : α)
  | failure (status : Nat) (error : String) (details : String)
deriving DecidableEq

/-- HTTP status of a gateway result. -/
def GatewayResult.status {α : Type} : GatewayResult α → Nat
  | .success s _ => s
  | .failure s _ _ => s

/-- The GET /source-chunk handler: a missing or empty `docId` query parameter
is rejected with 400; otherwise the upstream AI-service response is forwarded.
`upstream` is the outcome of `axios.get(aiUrl + "/source-chunk", …)`: on
success the body `r.data` is forwarded unchanged; any axios throw (including an
upstream 404) lands in the catch block, which answers 500. -/
def sourceChunkHandler {α : Type} (docId : Option String)
    (upstream : Except String α) : GatewayResult α :=
  match docId with
  | none => .failure 400 "Missing docId" ""
  | some d =>
    if d = "" then .failure 400 "Missing docId" ""
    else
      match upstream with
      | .ok body => .success 200 body
      | .error m => .failure 500 "Source chunk fetch failed" m

/-- Metadata returned by the AI service's /doc-meta endpoint. -/
structure DocMeta where
  filename : String
  docType : String
  blobName : String
deriving DecidableEq

/-- Body of a successful /doc-preview-url response. -/
structure DocPreviewResp where
  docId : String
  filename : String
  docType : String
  url : String
deriving DecidableEq

/-- The GET /doc-preview-url handler: missing/empty `docId` is rejected with
400; a throw from the /doc-meta lookup (including an upstream 404 miss) or
from SAS construction lands in the catch block, which answers 500. -/
def docPreviewHandler (nowMs : Nat) (connStr containerName : String)
    (docId : Option String) (meta : Except String DocMeta) :
    GatewayResult DocPreviewResp :=
  match docId with
  | none => .failure 400 "Missing docId" ""
  | some d =>
    if d = "" then .failure 400 "Missing docId" ""
    else
      match meta with
      | .error m => .failure 500 "Failed to create doc preview url" m
      | .ok mt =>
        match getReadSasUrl nowMs connStr containerName mt.blobName with
        | .error m => .failure 500 "Failed to create doc preview url" m
        | .ok su => .success 200 ⟨d, mt.filename, mt.docType, su.2⟩

/-! ## The grounded-generation core

The Python AI service holding the core pipeline is not part of the source
tree; these definitions are modelled from the design document, as flagged on
each one. -/

/-- Modelled from the spec: a `Document` of the Chunk Store
(`{docId, filename, docType, authorityLevel}`). -/
structure Document where
  docId : String
  filename : String
  docType : String
  authorityLevel : String
deriving DecidableEq

/-- Modelled from the spec: a `Chunk`
(`{docId, chunkId, text, position}`; the embedding vector plays no role in the
claims below and is omitted). -/
structure Chunk where
  docId : String
  chunkId : Nat
  text : String
  position : Nat
deriving DecidableEq

/-- Modelled from the spec: the persisted state, a Document table and a Chunk
table. -/
structure Store where
  docs : List Document
  chunks : List Chunk
deriving DecidableEq

/-- A `SourceRef` (`{docId, filename, chunkId, quote}`), shared by the spec's
data model and `CitationsViewer.tsx`. -/
structure SourceRef where
  docId : String
  filename : String
  chunkId : Nat
  quote : String
deriving DecidableEq

/-- Modelled from the spec: one generated step/section carrying content and
zero or more SourceRefs (the SOP/Process section shapes share this
substructure and do not affect the claims below). -/
structure GenStep where
  content : String
  sources : List SourceRef
deriving DecidableEq

/-- Modelled from the spec: a generated document as its list of steps. -/
abbrev GeneratedDoc := List GenStep

/-- Collapses each maximal run of whitespace to a single space; the flag
records whether the previous character was whitespace. -/
def collapseWsAux : Bool → List Char → List Char
  | _, [] => []
  | prevWs, a :: rest =>
    if a.isWhitespace then
      if prevWs then collapseWsAux true rest
      else ' ' :: collapseWsAux true rest
    else a :: collapseWsAux false rest

/-- Collapses each maximal run of whitespace to a single space. -/
def collapseWs (l : List Char) : List Char :=
  collapseWsAux false l

/-- Modelled from the spec: the Citation Validator's normalization — trim,
collapse whitespace, case-insensitive compare (lower-casing both sides). -/
def normalizeQuote (s : String) : String :=
  ⟨(collapseWs (jsTrim s).data).map Char.toLower⟩

/-- Chunk lookup by `(docId, chunkId)`. -/
def findChunk (st : Store) (docId : String) (chunkId : Nat) : Option Chunk :=
  st.chunks.find? (fun c => c.docId == docId && c.chunkId == chunkId)

/-- Modelled from the spec: the Citation Validator's check for one SourceRef —
the quote is non-empty and, after normalization, occurs verbatim within the
text of the chunk identified by `(docId, chunkId)`; a missing chunk fails the
check. -/
def quoteSupported (st : Store) (r : SourceRef) : Bool :=
  !(r.quote == "") &&
    match findChunk st r.docId r.chunkId with
    | some c => hasInfix (normalizeQuote r.quote).data (normalizeQuote c.text).data
    | none => false

/-- A reference after validation: passed unchanged, or flagged as an explicit
"unverified" marker. -/
inductive ValidatedRef where
  | valid (r : SourceRef)
  | unverified (r : SourceRef)
deriving DecidableEq

/-- Modelled from the spec: the Citation Validator on one step — valid refs
pass unchanged; invalid refs are dropped when other valid refs remain, or
replaced with explicit "unverified" markers when the step has no valid ref. -/
def validateStep (st : Store) (step : GenStep) : List ValidatedRef :=
  let valids := step.sources.filter (quoteSupported st)
  if valids.isEmpty && !step.sources.isEmpty then
    step.sources.map ValidatedRef.unverified
  else
    valids.map ValidatedRef.valid

/-- Modelled from the spec: the Citation Validator over the whole generated
document, step by step. -/
def validateDoc (st : Store) (doc : GeneratedDoc) : List (List ValidatedRef) :=
  doc.map (validateStep st)

/-- Body of a successful `getSourceChunk` response. -/
structure SourceChunkResp where
  filename : String
  chunkId : Nat
  content : String
deriving DecidableEq

/-- Modelled from the spec: `getSourceChunk(docId, chunkId)` serves the exact,
unmodified chunk text together with the owning document's filename, or
`not_found` (`none`) when the `(docId, chunkId)` locator does not resolve. -/
def getSourceChunk (st : Store) (docId : String) (chunkId : Nat) :
    Option SourceChunkResp :=
  match findChunk st docId chunkId, st.docs.find? (fun d => d.docId == docId) with
  | some c, some d => some { filename := d.filename, chunkId := chunkId, content := c.text }
  | _, _ => none

/-- The three confidence levels of a VerificationReport. -/
inductive Confidence where
  | high
  | medium
  | low
deriving DecidableEq

/-- An issue entry of a VerificationReport. -/
structure Issue where
  type : String
  step : Nat
  details : String
  advice : Option String
deriving DecidableEq

/-- A conflict entry of a VerificationReport. -/
structure Conflict where
  topic : String
  advice : Option String
deriving DecidableEq

/-- Modelled from the spec: the Verification Checker's confidence aggregation —
`high` iff issues and conflicts are both empty; `medium` if there is no
conflict and at most one (unsupported-claim) issue; `low` otherwise. It reads
only the issue and conflict counts. -/
def overallConfidence (issues : List Issue) (conflicts : List Conflict) : Confidence :=
  if issues.length = 0 ∧ conflicts.length = 0 then .high
  else if conflicts.length = 0 ∧ issues.length ≤ 1 then .medium
  else .low

/-- The two output kinds of a generation request. -/
inductive OutputKind where
  | sop
  | process
deriving DecidableEq

/-- Modelled from the spec: the number of structural units the Retriever
queries for — the SOP shape has 7 sections, the Process shape 8. -/
def unitCount : OutputKind → Nat
  | .sop => 7
  | .process => 8

/-- Filename of a document in the store (empty when unknown). -/
def filenameOf (st : Store) (docId : String) : String :=
  ((st.docs.find? (fun d => d.docId == docId)).map (·.filename)).getD ""

/-- Modelled from the spec: the `generate(docIds, outputKind, …)` entry point.
An empty docId set fails with a descriptive error before any retrieval is
issued (the second component counts retrieval calls against the Vector
Index); otherwise one retrieval per structural unit is issued, scoped to the
request's docId set, and each unit is grounded on chunks of that scope with
quotes copied verbatim from chunk text. -/
def generateCore (st : Store) (docIds : List String) (kind : OutputKind) :
    Except String GeneratedDoc × Nat :=
  if docIds.isEmpty then
    (.error "Generation requires a non-empty docId set; upload and select at least one source document.", 0)
  else
    let inScope := st.chunks.filter (fun c => docIds.contains c.docId)
    let doc := (List.range (unitCount kind)).map (fun u =>
      { content := if inScope.isEmpty then "[no supporting evidence]" else "unit " ++ toString u
        sources := (inScope.take 1).map (fun c =>
          { docId := c.docId, filename := filenameOf st c.docId
            chunkId := c.chunkId, quote := c.text }) })
    (.ok doc, unitCount kind)

/-- The gateway's destructuring `const { docIds = [] } = req.body || {}`: a
missing body or missing `docIds` field is forwarded as the empty list. -/
def gatewayDocIds (body : Option (Option (List String))) : List String :=
  (body.getD none).getD []

/-- Modelled from the spec: chunk creation during ingestion — chunkIds are
assigned sequentially per document, in the source's reading order, starting
from `n`. -/
def assignChunkIdsFrom (docId : String) : Nat → List String → List Chunk
  | _, [] => []
  | n, t :: rest =>
    { docId := docId, chunkId := n, text := t, position := n } ::
      assignChunkIdsFrom docId (n + 1) rest

/-- Modelled from the spec: ingestion of one document's chunk texts, ids
starting at 0. -/
def ingestChunks (docId : String) (pieces : List String) : List Chunk :=
  assignChunkIdsFrom docId 0 pieces

theorem replaceAllChar_append (c : Char) (r l₁ l₂ : List Char) :
    replaceAllChar c r (l₁ ++ l₂) = replaceAllChar c r l₁ ++ replaceAllChar c r l₂ := by
  induction l₁ with
  | nil => simp [replaceAllChar]
  | cons a rest ih => simp [replaceAllChar, ih]

theorem escL_append (l₁ l₂ : List Char) : escL (l₁ ++ l₂) = escL l₁ ++ escL l₂ := by
  simp [escL, replaceAllChar_append]

theorem escL_single (a : Char) : escL [a] = escCharSpec a := by
  by_cases h1 : a = '&'
  · subst h1; decide
  by_cases h2 : a = '<'
  · subst h2; decide
  by_cases h3 : a = '>'
  · subst h3; decide
  by_cases h4 : a = '"'
  · subst h4; decide
  by_cases h5 : a = '\''
  · subst h5; decide
  simp [escL, escCharSpec, replaceAllChar, h1, h2, h3, h4, h5]

theorem escL_eq_flatMap (l : List Char) : escL l = l.flatMap escCharSpec := by
  induction l with
  | nil => simp [escL, replaceAllChar]
  | cons a rest ih =>
    have h : a :: rest = [a] ++ rest := rfl
    rw [h, escL_append, escL_single, ih, List.flatMap_append]
    simp

theorem escCharSpec_no_special (a c : Char)
    (hc : c = '<' ∨ c = '>' ∨ c = '"' ∨ c = '\'') : c ∉ escCharSpec a := by
  unfold escCharSpec
  split_ifs with h1 h2 h3 h4 h5
  · rcases hc with rfl | rfl | rfl | rfl <;> decide
  · rcases hc with rfl | rfl | rfl | rfl <;> decide
  · rcases hc with rfl | rfl | rfl | rfl <;> decide
  · rcases hc with rfl | rfl | rfl | rfl <;> decide
  · rcases hc with rfl | rfl | rfl | rfl <;> decide
  · intro hmem
    rcases List.mem_singleton.mp hmem with rfl
    rcases hc with rfl | rfl | rfl | rfl <;> simp_all

theorem splitOnNE_ne_nil (p : Char) (ps l : List Char) : splitOnNE p ps l ≠ [] := by
  induction l using splitOnNE.induct p ps with
  | case1 => simp [splitOnNE]
  | case2 a rest h ih => simp [splitOnNE, h]
  | case3 a rest h heq ih => rw [splitOnNE]; simp [h, heq] at ih ⊢
  | case4 a rest h x xs heq ih => rw [splitOnNE]; simp [h, heq]

theorem joinSep_cons_cons (sep x y : List Char) (ys : List (List Char)) :
    joinSep sep (x :: y :: ys) = x ++ sep ++ joinSep sep (y :: ys) := by
  simp [joinSep]

/-- `split` followed by `join` replaces each occurrence of the separator. -/
theorem joinSep_splitOnNE (p : Char) (ps repl l : List Char) :
    joinSep repl (splitOnNE p ps l) = replaceOcc p ps repl l := by
  induction l using splitOnNE.induct p ps with
  | case1 => simp [splitOnNE, replaceOcc, joinSep]
  | case2 a rest h ih =>
    rw [splitOnNE, replaceOcc]
    simp only [h, if_true]
    obtain ⟨x, xs, hx⟩ := List.exists_cons_of_ne_nil (splitOnNE_ne_nil p ps (rest.drop ps.length))
    rw [hx] at ih ⊢
    rw [joinSep_cons_cons, ← ih]
    simp [joinSep]
  | case3 a rest h heq ih =>
    exact absurd heq (splitOnNE_ne_nil p ps rest)
  | case4 a rest h x xs heq ih =>
    rw [splitOnNE, replaceOcc]
    simp only [h, heq, Bool.false_eq_true, if_false]
    rw [heq] at ih
    cases xs with
    | nil => simp [joinSep] at ih ⊢; rw [← ih]
    | cons y ys =>
      rw [joinSep_cons_cons, ← ih, joinSep_cons_cons]
      simp

theorem joinSep_splitOnL (pat repl l : List Char) :
    joinSep repl (splitOnL pat l) = replaceOccL pat repl l := by
  cases pat with
  | nil => simp [splitOnL, replaceOccL, joinSep]
  | cons p ps => simp [splitOnL, replaceOccL, joinSep_splitOnNE]

theorem escapeHtml_empty : escapeHtml "" = "" := by decide

/-- C9: `escapeHtml` replaces every occurrence of `&`, `<`, `>`, `"` and `'`
by its HTML entity — its output is exactly the per-character entity expansion,
and contains no raw `<`, `>`, `"` or `'` at all (every `&` it contains was
introduced as the head of an entity by that expansion). `highlightInText`
returns `{__html: ""}` on empty text, returns the escaped text with no mark
for a trimmed quote of fewer than 8 characters, and otherwise wraps each exact
(case-sensitive, post-escaping) occurrence of the trimmed quote in the escaped
text in a `<mark>` element. -/
theorem claim_C9_escape_and_highlight :
    (∀ s : String, (escapeHtml s).data = s.data.flatMap escCharSpec) ∧
    (∀ s : String, ∀ c ∈ (escapeHtml s).data,
      c ≠ '<' ∧ c ≠ '>' ∧ c ≠ '"' ∧ c ≠ '\'') ∧
    (∀ q : String, highlightInText "" q = ⟨""⟩) ∧
    (∀ t q : String, (jsTrim q).length < 8 → highlightInText t q = ⟨escapeHtml t⟩) ∧
    (∀ t q : String, t ≠ "" → 8 ≤ (jsTrim q).length →
      (highlightInText t q).__html.data =
        replaceOccL (escapeHtml (jsTrim q)).data
          (markPre.data ++ (escapeHtml (jsTrim q)).data ++ markPost.data)
          (escapeHtml t).data) := by
  refine ⟨fun s => escL_eq_flatMap s.data, ?_, ?_, ?_, ?_⟩
  · intro s c hc
    rw [show (escapeHtml s).data = escL s.data from rfl, escL_eq_flatMap] at hc
    rcases List.mem_flatMap.mp hc with ⟨a, _, ha⟩
    refine ⟨?_, ?_, ?_, ?_⟩
    · rintro rfl; exact escCharSpec_no_special a '<' (by simp) ha
    · rintro rfl; exact escCharSpec_no_special a '>' (by simp) ha
    · rintro rfl; exact escCharSpec_no_special a '"' (by simp) ha
    · rintro rfl; exact escCharSpec_no_special a '\'' (by simp) ha
  · intro q
    simp [highlightInText]
  · intro t q hq
    by_cases ht : t = ""
    · subst ht
      simp [highlightInText, escapeHtml_empty]
    · simp [highlightInText, ht, hq]
  · intro t q ht hq
    have h8 : ¬ (jsTrim q).length < 8 := by omega
    simp only [highlightInText, ht, h8, if_false]
    exact joinSep_splitOnL _ _ _

/-- Witness for C9 at concrete inputs. -/
theorem claim_C9_witness :
    highlightInText "short & text" "abc" = ⟨escapeHtml "short & text"⟩ ∧
    (highlightInText "hello evidence here" " evidence ").__html.data =
      replaceOccL (escapeHtml (jsTrim " evidence ")).data
        (markPre.data ++ (escapeHtml (jsTrim " evidence ")).data ++ markPost.data)
        (escapeHtml "hello evidence here").data := by
  refine ⟨claim_C9_escape_and_highlight.2.2.2.1 _ _ (by decide),
    claim_C9_escape_and_highlight.2.2.2.2 _ _ (by decide) (by decide)⟩

/-- C8: a POST /upload request with an empty file list is answered with status
400 and the error `"Missing file(s)"`, with no container creation, no blob
upload and no ingestion call. -/
theorem claim_C8_empty_upload :
    ∀ (uuid : Nat → String) (outcome : UploadFile → UploadOutcome),
      uploadHandler uuid outcome [] =
        (UploadResponse.badRequest "Missing file(s)", ⟨0, 0, 0⟩) ∧
      (uploadHandler uuid outcome []).1.status = 400 := by
  intro uuid outcome
  exact ⟨rfl, rfl⟩

/-- C2: `overall_confidence` is `high` iff `issues` and `conflicts` are both
empty, `medium` iff there is exactly one issue and no conflict, `low` iff
there is a conflict or at least two issues, and the mapping depends only on
the issue and conflict counts. -/
theorem claim_C2_overall_confidence :
    (∀ (i : List Issue) (c : List Conflict),
        overallConfidence i c = Confidence.high ↔ i = [] ∧ c = []) ∧
    (∀ (i : List Issue) (c : List Conflict),
        overallConfidence i c = Confidence.medium ↔ i.length = 1 ∧ c = []) ∧
    (∀ (i : List Issue) (c : List Conflict),
        overallConfidence i c = Confidence.low ↔ c ≠ [] ∨ 2 ≤ i.length) ∧
    (∀ (i₁ i₂ : List Issue) (c₁ c₂ : List Conflict),
        i₁.length = i₂.length → c₁.length = c₂.length →
        overallConfidence i₁ c₁ = overallConfidence i₂ c₂) := by
  refine ⟨?_, ?_, ?_, ?_⟩
  · intro i c
    rw [overallConfidence]
    split_ifs with h1 h2
    · obtain ⟨hi, hc⟩ := h1
      rw [List.length_eq_zero] at hi hc
      simp [hi, hc]
    · constructor
      · intro h; exact absurd h (by decide)
      · rintro ⟨rfl, rfl⟩; exact h1 ⟨rfl, rfl⟩
    · constructor
      · intro h; exact absurd h (by decide)
      · rintro ⟨rfl, rfl⟩; exact h1 ⟨rfl, rfl⟩
  · intro i c
    rw [overallConfidence]
    split_ifs with h1 h2
    · obtain ⟨hi, hc⟩ := h1
      constructor
      · intro h; exact absurd h (by decide)
      · rintro ⟨h3, rfl⟩; omega
    · obtain ⟨hc, hi⟩ := h2
      have hi0 : i.length ≠ 0 := fun h0 => h1 ⟨h0, hc⟩
      have hi1 : i.length = 1 := by omega
      rw [List.length_eq_zero] at hc
      simp [hi1, hc]
    · constructor
      · intro h; exact absurd h (by decide)
      · rintro ⟨h3, rfl⟩
        exact h2 ⟨rfl, by omega⟩
  · intro i c
    rw [overallConfidence]
    split_ifs with h1 h2
    · obtain ⟨hi, hc⟩ := h1
      rw [List.length_eq_zero] at hc
      constructor
      · intro h; exact absurd h (by decide)
      · rintro (h | h)
        · exact absurd hc h
        · omega
    · obtain ⟨hc, hi⟩ := h2
      rw [List.length_eq_zero] at hc
      constructor
      · intro h; exact absurd h (by decide)
      · rintro (h | h)
        · exact absurd hc h
        · omega
    · constructor
      · intro _
        by_cases hc : c = []
        · subst hc
          have hle : ¬ i.length ≤ 1 := fun hle => h2 ⟨rfl, hle⟩
          right; omega
        · left; exact hc
      · intro _; rfl
  · intro i₁ i₂ c₁ c₂ hi hc
    rw [overallConfidence, overallConfidence, hi, hc]

/-- Witness for C2: two reports with the same issue and conflict counts get
the same confidence. -/
theorem claim_C2_witness :
    overallConfidence [⟨"unsupported_claim", 1, "step 1 has no citation", none⟩] [] =
      overallConfidence [⟨"unsupported_claim", 2, "step 2 has no citation", some "add a citation"⟩] [] := by
  exact claim_C2_overall_confidence.2.2.2 _ _ _ _ rfl rfl

/-- C1: every SourceRef that leaves the Citation Validator marked valid has a
non-empty quote whose normalization (trim, collapse whitespace, lower-case)
occurs verbatim within the normalized text of the chunk addressed by its
`(docId, chunkId)`; references failing this are dropped or come out flagged
`unverified`, never as `valid`. -/
theorem claim_C1_citation_validator :
    ∀ (st : Store) (doc : GeneratedDoc) (vs : List ValidatedRef) (r : SourceRef),
      vs ∈ validateDoc st doc →
      ValidatedRef.valid r ∈ vs →
      r.quote ≠ "" ∧
      ∃ c : Chunk, findChunk st r.docId r.chunkId = some c ∧
        hasInfix (normalizeQuote r.quote).data (normalizeQuote c.text).data = true := by
  intro st doc vs r hvs hr
  rcases List.mem_map.mp hvs with ⟨step, _, rfl⟩
  simp only [validateStep] at hr
  split at hr
  · rcases List.mem_map.mp hr with ⟨a, _, hcontra⟩
    exact absurd hcontra (by simp)
  · rcases List.mem_map.mp hr with ⟨a, ha, heq⟩
    have har : a = r := by injection heq
    subst har
    have hsup : quoteSupported st a = true := (List.mem_filter.mp ha).2
    rw [quoteSupported, Bool.and_eq_true] at hsup
    obtain ⟨h1, h2⟩ := hsup
    have hq : a.quote ≠ "" := by
      intro h0
      rw [h0] at h1
      simp at h1
    refine ⟨hq, ?_⟩
    cases hfc : findChunk st a.docId a.chunkId with
    | none => rw [hfc] at h2; simp at h2
    | some c => rw [hfc] at h2; exact ⟨c, rfl, h2⟩

/-- Witness for C1: a concrete store, document and reference whose quote
differs from the chunk text in case and spacing but validates. -/
theorem claim_C1_witness :
    ("submit THE form" : String) ≠ "" ∧
    ∃ c : Chunk,
      findChunk ⟨[⟨"d1", "sop.txt", "txt", "standard"⟩],
        [⟨"d1", 0, "Submit  the form to Finance.", 0⟩]⟩ "d1" 0 = some c ∧
      hasInfix (normalizeQuote "submit THE form").data (normalizeQuote c.text).data = true := by
  exact claim_C1_citation_validator
    ⟨[⟨"d1", "sop.txt", "txt", "standard"⟩], [⟨"d1", 0, "Submit  the form to Finance.", 0⟩]⟩
    [⟨"step 1", [⟨"d1", "sop.txt", 0, "submit THE form"⟩]⟩]
    (validateStep ⟨[⟨"d1", "sop.txt", "txt", "standard"⟩],
      [⟨"d1", 0, "Submit  the form to Finance.", 0⟩]⟩
      ⟨"step 1", [⟨"d1", "sop.txt", 0, "submit THE form"⟩]⟩)
    ⟨"d1", "sop.txt", 0, "submit THE form"⟩
    (by simp [validateDoc])
    (by decide)

/-- C3: a generation request with an empty docId set fails with a descriptive
(non-empty) error message and issues zero retrieval calls, for either output
kind; the gateway forwards a missing request body or missing `docIds` field as
the empty list, so such requests reach this same guard. -/
theorem claim_C3_empty_docid_set :
    (∀ (st : Store) (kind : OutputKind) (docIds : List String),
        docIds = [] →
        (generateCore st docIds kind).2 = 0 ∧
        ∃ msg, (generateCore st docIds kind).1 = Except.error msg ∧ msg ≠ "") ∧
    gatewayDocIds none = [] ∧ gatewayDocIds (some none) = [] := by
  refine ⟨?_, rfl, rfl⟩
  rintro st kind _ rfl
  exact ⟨rfl,
    "Generation requires a non-empty docId set; upload and select at least one source document.",
    rfl, by decide⟩

/-- Witness for C3 at a concrete empty request. -/
theorem claim_C3_witness :
    (generateCore ⟨[], []⟩ [] OutputKind.sop).2 = 0 ∧
    ∃ msg, (generateCore ⟨[], []⟩ [] OutputKind.sop).1 = Except.error msg ∧ msg ≠ "" :=
  claim_C3_empty_docid_set.1 ⟨[], []⟩ OutputKind.sop [] rfl

theorem uploadLoop_fst (uuid : Nat → String) (outcome : UploadFile → UploadOutcome) :
    ∀ (files : List UploadFile) (idx : Nat),
      (uploadLoop uuid outcome idx files).1.map (·.filename) =
        (files.filter (fun f => decide (outcome f = .ok))).map (·.originalname) := by
  intro files
  induction files with
  | nil => intro idx; rfl
  | cons f rest ih =>
    intro idx
    cases hf : outcome f <;>
      simp [uploadLoop, hf, List.filter_cons, ih (idx + 1)]

theorem uploadLoop_snd (uuid : Nat → String) (outcome : UploadFile → UploadOutcome) :
    ∀ (files : List UploadFile) (idx : Nat),
      (uploadLoop uuid outcome idx files).2 =
        files.filterMap (fun f =>
          match outcome f with
          | .ok => none
          | .blobError m => some ⟨f.originalname, docTypeOf f.originalname, errorText m⟩
          | .ingestError m => some ⟨f.originalname, docTypeOf f.originalname, errorText m⟩) := by
  intro files
  induction files with
  | nil => intro idx; rfl
  | cons f rest ih =>
    intro idx
    cases hf : outcome f <;>
      simp [uploadLoop, hf, List.filterMap_cons, ih (idx + 1)]

/-- C4: ingestion failure is per-document and recoverable — in one uploaded
batch, every file whose external work succeeds appears in the results even
when another file fails, and every failed file yields exactly one error entry
naming that file; a non-empty batch always answers with the batch response
carrying both lists. -/
theorem claim_C4_per_document_ingestion_failure :
    ∀ (uuid : Nat → String) (outcome : UploadFile → UploadOutcome)
      (files : List UploadFile),
      (∀ g ∈ files, outcome g = .ok →
        g.originalname ∈ (uploadLoop uuid outcome 0 files).1.map (·.filename)) ∧
      (∀ g ∈ files, ∀ m, outcome g = .blobError m ∨ outcome g = .ingestError m →
        (⟨g.originalname, docTypeOf g.originalname, errorText m⟩ : UploadErrorItem) ∈
          (uploadLoop uuid outcome 0 files).2) ∧
      (files ≠ [] →
        (uploadHandler uuid outcome files).1 =
          UploadResponse.batch (uploadLoop uuid outcome 0 files).1
            (uploadLoop uuid outcome 0 files).2) := by
  intro uuid outcome files
  refine ⟨?_, ?_, ?_⟩
  · intro g hg hok
    rw [uploadLoop_fst]
    exact List.mem_map.mpr ⟨g, List.mem_filter.mpr ⟨hg, by simp [hok]⟩, rfl⟩
  · intro g hg m hm
    rw [uploadLoop_snd]
    refine List.mem_filterMap.mpr ⟨g, hg, ?_⟩
    rcases hm with h | h <;> rw [h]
  · intro hne
    cases files with
    | nil => exact absurd rfl hne
    | cons f rest => rfl

/-- Witness for C4: a batch of two files where the second file's ingestion
call fails — the first is still ingested and the failure entry names the
second file. -/
theorem claim_C4_witness :
    ("a.txt" : String) ∈
      ((uploadLoop (fun _ => "id")
        (fun f => if f.originalname = "b.pdf" then .ingestError "boom" else .ok) 0
        [⟨"a.txt", "x", "text/plain"⟩, ⟨"b.pdf", "y", "application/pdf"⟩]).1.map (·.filename)) ∧
    (⟨"b.pdf", docTypeOf "b.pdf", errorText "boom"⟩ : UploadErrorItem) ∈
      (uploadLoop (fun _ => "id")
        (fun f => if f.originalname = "b.pdf" then .ingestError "boom" else .ok) 0
        [⟨"a.txt", "x", "text/plain"⟩, ⟨"b.pdf", "y", "application/pdf"⟩]).2 := by
  have h := claim_C4_per_document_ingestion_failure (fun _ => "id")
    (fun f => if f.originalname = "b.pdf" then .ingestError "boom" else .ok)
    [⟨"a.txt", "x", "text/plain"⟩, ⟨"b.pdf", "y", "application/pdf"⟩]
  exact ⟨h.1 ⟨"a.txt", "x", "text/plain"⟩ (by decide) (by decide),
    h.2.1 ⟨"b.pdf", "y", "application/pdf"⟩ (by decide) "boom" (Or.inr (by decide))⟩

theorem assignChunkIdsFrom_map_chunkId (d : String) :
    ∀ (ps : List String) (n : Nat),
      (assignChunkIdsFrom d n ps).map (·.chunkId) = List.range' n ps.length := by
  intro ps
  induction ps with
  | nil => intro n; rfl
  | cons t rest ih => intro n; simp [assignChunkIdsFrom, List.range'_succ, ih (n + 1)]

theorem assignChunkIdsFrom_map_text (d : String) :
    ∀ (ps : List String) (n : Nat),
      (assignChunkIdsFrom d n ps).map (·.text) = ps := by
  intro ps
  induction ps with
  | nil => intro n; rfl
  | cons t rest ih => intro n; simp [assignChunkIdsFrom, ih (n + 1)]

/-- C5: ingesting a document's chunk texts yields chunkIds that are exactly
`0, 1, …, n-1` — contiguous from 0 and strictly increasing — in the source's
reading order (the chunk texts come out in the order they went in). -/
theorem claim_C5_chunk_id_sequence :
    ∀ (docId : String) (pieces : List String),
      (ingestChunks docId pieces).map (·.chunkId) = List.range pieces.length ∧
      (ingestChunks docId pieces).map (·.text) = pieces ∧
      List.Pairwise (· < ·) ((ingestChunks docId pieces).map (·.chunkId)) := by
  intro d ps
  have h1 : (ingestChunks d ps).map (·.chunkId) = List.range ps.length := by
    rw [ingestChunks, assignChunkIdsFrom_map_chunkId, List.range_eq_range']
  exact ⟨h1, assignChunkIdsFrom_map_text d ps 0, by rw [h1]; exact List.pairwise_lt_range _⟩

/-- C6: `getSourceChunk` answers an existing `(docId, chunkId)` with the
stored chunk's exact text and the owning document's filename, answers a
missing locator with `not_found`, and the gateway's /source-chunk handler
forwards a successful upstream body unchanged (whatever its type). -/
theorem claim_C6_source_chunk_exact :
    (∀ (st : Store) (docId : String) (chunkId : Nat) (c : Chunk) (d : Document),
        findChunk st docId chunkId = some c →
        st.docs.find? (fun d' => d'.docId == docId) = some d →
        getSourceChunk st docId chunkId =
          some { filename := d.filename, chunkId := chunkId, content := c.text }) ∧
    (∀ (st : Store) (docId : String) (chunkId : Nat),
        findChunk st docId chunkId = none →
        getSourceChunk st docId chunkId = none) ∧
    (∀ (α : Type) (d : String) (body : α), d ≠ "" →
        sourceChunkHandler (some d) (Except.ok body) = GatewayResult.success 200 body) := by
  refine ⟨?_, ?_, ?_⟩
  · intro st docId chunkId c d hc hd
    simp [getSourceChunk, hc, hd]
  · intro st docId chunkId hc
    cases hd : st.docs.find? (fun d' => d'.docId == docId) <;>
      simp [getSourceChunk, hc, hd]
  · intro α d body hd
    simp [sourceChunkHandler, hd]

/-- Witness for C6 at a concrete store and forwarded body. -/
theorem claim_C6_witness :
    getSourceChunk ⟨[⟨"d1", "a.txt", "txt", "standard"⟩], [⟨"d1", 0, "hello world", 0⟩]⟩
        "d1" 0 = some ⟨"a.txt", 0, "hello world"⟩ ∧
    getSourceChunk ⟨[⟨"d1", "a.txt", "txt", "standard"⟩], [⟨"d1", 0, "hello world", 0⟩]⟩
        "d1" 5 = none ∧
    sourceChunkHandler (some "d1") (Except.ok (42 : Nat)) = GatewayResult.success 200 42 := by
  exact ⟨claim_C6_source_chunk_exact.1
      ⟨[⟨"d1", "a.txt", "txt", "standard"⟩], [⟨"d1", 0, "hello world", 0⟩]⟩
      "d1" 0 ⟨"d1", 0, "hello world", 0⟩ ⟨"d1", "a.txt", "txt", "standard"⟩
      (by decide) (by decide),
    claim_C6_source_chunk_exact.2.1
      ⟨[⟨"d1", "a.txt", "txt", "standard"⟩], [⟨"d1", 0, "hello world", 0⟩]⟩
      "d1" 5 (by decide),
    claim_C6_source_chunk_exact.2.2 Nat "d1" 42 (by decide)⟩

/-- C7 counterexample: when the upstream chunk lookup misses, axios rejects
with "Request failed with status code 404" and the gateway's catch block
answers 500 — a server error, not a 4xx — so the claim that a lookup miss is
surfaced as a 4xx-equivalent is false for the gateway as written. -/
theorem claim_C7_counterexample :
    (sourceChunkHandler (α := SourceChunkResp) (some "doc-1")
        (Except.error "Request failed with status code 404")).status = 500 ∧
    ¬ ((sourceChunkHandler (α := SourceChunkResp) (some "doc-1")
        (Except.error "Request failed with status code 404")).status < 500) := by
  exact ⟨by decide, by decide⟩

/-- C7 amended: a missing or empty `docId` query parameter is rejected with
status 400, while an upstream lookup miss (or any other upstream failure) is
surfaced by both /source-chunk and /doc-preview-url as status 500 with a
descriptive error body carrying the upstream message. -/
theorem claim_C7_amended_gateway_status :
    (∀ (α : Type) (up : Except String α),
        sourceChunkHandler (α := α) none up =
          GatewayResult.failure 400 "Missing docId" "") ∧
    (∀ (α : Type) (d m : String), d ≠ "" →
        sourceChunkHandler (α := α) (some d) (Except.error m) =
          GatewayResult.failure 500 "Source chunk fetch failed" m) ∧
    (∀ (now : Nat) (cs cn : String) (meta : Except String DocMeta),
        docPreviewHandler now cs cn none meta =
          GatewayResult.failure 400 "Missing docId" "") ∧
    (∀ (now : Nat) (cs cn d m : String), d ≠ "" →
        docPreviewHandler now cs cn (some d) (Except.error m) =
          GatewayResult.failure 500 "Failed to create doc preview url" m) := by
  refine ⟨fun α up => rfl, ?_, fun now cs cn meta => rfl, ?_⟩
  · intro α d m hd
    simp [sourceChunkHandler, hd]
  · intro now cs cn d m hd
    simp [docPreviewHandler, hd]

/-- Witness for the amended C7 at concrete misses. -/
theorem claim_C7_witness :
    sourceChunkHandler (α := Nat) (some "d1")
        (Except.error "Request failed with status code 404") =
      GatewayResult.failure 500 "Source chunk fetch failed"
        "Request failed with status code 404" ∧
    docPreviewHandler 0 "" "opsassistant" (some "d1")
        (Except.error "Request failed with status code 404") =
      GatewayResult.failure 500 "Failed to create doc preview url"
        "Request failed with status code 404" := by
  exact ⟨claim_C7_amended_gateway_status.2.1 Nat "d1" _ (by decide),
    claim_C7_amended_gateway_status.2.2.2 0 "" "opsassistant" "d1" _ (by decide)⟩

/-- C10: every SAS URL the gateway builds carries permission `"r"` (read-only)
and an expiry exactly one hour (3 600 000 ms) after creation time, and the URL
addresses the configured container and the given blob name under the parsed
account's blob endpoint. -/
theorem claim_C10_read_sas_url :
    ∀ (nowMs : Nat) (connStr container blob : String) (sas : SasParams) (url : String),
      getReadSasUrl nowMs connStr container blob = Except.ok (sas, url) →
      sas.permissions = "r" ∧
      sas.expiresOn = nowMs + 60 * 60 * 1000 ∧
      sas.containerName = container ∧
      sas.blobName = blob ∧
      ∃ accountName,
        lookupConn (parseConnStr connStr) "AccountName" = some accountName ∧
        url = "https://" ++ accountName ++ ".blob.core.windows.net/" ++ container ++
          "/" ++ encodeURIComponent blob ++ "?" ++ sasQueryString sas := by
  intro nowMs connStr container blob sas url h
  simp only [getReadSasUrl] at h
  cases hA : lookupConn (parseConnStr connStr) "AccountName" with
  | none => rw [hA] at h; exact Except.noConfusion h
  | some accountName =>
    cases hK : lookupConn (parseConnStr connStr) "AccountKey" with
    | none => rw [hA, hK] at h; exact Except.noConfusion h
    | some accountKey =>
      rw [hA, hK, Except.ok.injEq, Prod.mk.injEq] at h
      obtain ⟨hsas, hurl⟩ := h
      subst hsas
      subst hurl
      exact ⟨rfl, rfl, rfl, rfl, accountName, rfl, rfl⟩

/-- Witness for C10 at a concrete connection string and blob. -/
theorem claim_C10_witness :
    ({ containerName := "opsassistant", blobName := "doc1_file.pdf"
       permissions := "r", expiresOn := 3601000 } : SasParams).permissions = "r" ∧
    ({ containerName := "opsassistant", blobName := "doc1_file.pdf"
       permissions := "r", expiresOn := 3601000 } : SasParams).expiresOn = 1000 + 60 * 60 * 1000 ∧
    ({ containerName := "opsassistant", blobName := "doc1_file.pdf"
       permissions := "r", expiresOn := 3601000 } : SasParams).containerName = "opsassistant" ∧
    ({ containerName := "opsassistant", blobName := "doc1_file.pdf"
       permissions := "r", expiresOn := 3601000 } : SasParams).blobName = "doc1_file.pdf" ∧
    ∃ accountName,
      lookupConn (parseConnStr "AccountName=myacct;AccountKey=key123") "AccountName" =
        some accountName ∧
      "https://myacct.blob.core.windows.net/opsassistant/doc1_file.pdf?sp=r&se=3601000" =
        "https://" ++ accountName ++ ".blob.core.windows.net/" ++ "opsassistant" ++
          "/" ++ encodeURIComponent "doc1_file.pdf" ++ "?" ++
          sasQueryString { containerName := "opsassistant", blobName := "doc1_file.pdf"
                           permissions := "r", expiresOn := 3601000 } := by
  exact claim_C10_read_sas_url 1000 "AccountName=myacct;AccountKey=key123"
    "opsassistant" "doc1_file.pdf"
    { containerName := "opsassistant", blobName := "doc1_file.pdf"
      permissions := "r", expiresOn := 3601000 }
    "https://myacct.blob.core.windows.net/opsassistant/doc1_file.pdf?sp=r&se=3601000"
    rfl

end OpsAssistant
